import Mathlib

/-!
# Verification of the nlk-term Session & Workspace Synchronization Engine

Shallow embedding of the front-end coordination logic of `nlk-term`:
the git panel's refresh coalescing and diff-token staleness machinery
(`src/components/GitPanel.vue`), the per-tab terminal event handling and
resize-debounce teardown (`src/components/TerminalPane.vue`), and the
application shell's tab management and cwd polling (the root component).
Asynchronous functions are modelled as explicit state machines whose
events correspond to the synchronous segments of the original code
between `await` points; external `invoke` calls are recorded in an
invocation trace and their outcomes supplied as parameters.
-/

namespace NlkTerm

/-- Embedding of JavaScript's `String.prototype.trim()`: strips leading and
trailing whitespace. Defined structurally over the character list so that
concrete instances evaluate. -/
def jsTrim (s : String) : String :=
  ⟨((s.data.dropWhile Char.isWhitespace).reverse.dropWhile
      Char.isWhitespace).reverse⟩

/-- Kinds of external `invoke` calls issued by the front end. -/
inductive Call where
  | gitStatus
  | gitBranches
  | gitDiff
  | gitCheckout
  | gitCommit
  | resizeTerminal
  | terminalCwd
  deriving DecidableEq, Repr

/-- One entry of `GitStatusResponse.changes` (type `GitChange` in
`GitPanel.vue`). -/
structure GitChange where
  path : String
  statusCode : String
  staged : Bool
  unstaged : Bool
  untracked : Bool
  deriving DecidableEq, Repr

/-- The `GitStatusResponse` payload returned by the `git_status` command. -/
structure GitStatusResponse where
  repoPath : String
  branch : String
  ahead : Nat
  behind : Nat
  changes : List GitChange
  deriving DecidableEq, Repr

/-- The `GitBranchesResponse` payload returned by `git_branches`. -/
structure GitBranchesResponse where
  current : String
  branches : List String
  deriving DecidableEq, Repr

/-! ## Diff requests (`loadDiff` in `GitPanel.vue`)

`loadDiff` increments the module-level `diffToken`, captures the new value,
issues `git_diff`, and on completion compares the captured token with the
current one: a mismatch means a newer request superseded this one, and the
result is dropped without touching the rendered diff or the loading flag.
We model the caller-visible state and the two synchronous segments of
`loadDiff` (issue, and resolution of the awaited `git_diff`). -/

/-- Caller-visible state touched by `loadDiff`: the token counter, the
`loadingDiff` flag, and which request's outcome is currently rendered in the
diff container (`none` until a request renders; `some (tok, ok)` when the
request captured as `tok` rendered, `ok = false` for the
"Failed to load diff" error rendering). -/
structure DiffState where
  diffToken : Nat
  loadingDiff : Bool
  rendered : Option (Nat × Bool)
  deriving DecidableEq, Repr

/-- Synchronous prefix of `loadDiff` after its guards:
`const currentDiffToken = ++diffToken; loadingDiff.value = true;`.
Returns the new state and the captured token. -/
def issueDiff (s : DiffState) : DiffState × Nat :=
  ({ s with diffToken := s.diffToken + 1, loadingDiff := true }, s.diffToken + 1)

/-- Resolution segment of `loadDiff` for the request that captured `tok`,
with `ok` recording whether the awaited `git_diff` succeeded. When the
captured token is no longer current the result — success or failure — is
dropped and the `finally` clause leaves `loadingDiff` alone; otherwise the
result is rendered and `loadingDiff` is cleared. -/
def resolveDiff (s : DiffState) (tok : Nat) (ok : Bool) : DiffState :=
  if tok = s.diffToken then
    { s with rendered := some (tok, ok), loadingDiff := false }
  else
    s

/-! ## Per-session terminal event delivery (`TerminalPane.vue`)

The `terminal-data` and `terminal-exit` listeners registered in `onMounted`
guard on `event.payload.tabId === props.tabId` before writing to the pane's
terminal. We model the terminal's received content as the list of strings
written to it. -/

/-- Handler for a `terminal-data{tabId, data}` push event in the pane whose
`props.tabId` is `myTab`: writes `data` to the terminal only when the event
is tagged with this pane's tab id. -/
def onTerminalData (myTab : String) (term : List String)
    (evTab : String) (data : String) : List String :=
  if evTab = myTab then term ++ [data] else term

/-- Handler for a `terminal-exit{tabId}` push event in the pane whose
`props.tabId` is `myTab`: writes the exit banner only when the event is
tagged with this pane's tab id. -/
def onTerminalExit (myTab : String) (term : List String)
    (evTab : String) : List String :=
  if evTab = myTab then term ++ ["\r\n[process exited]"] else term

/-! ## Advisory cwd polling (`syncActiveTerminalCwd` in the root component)

Each poll reads the active tab; with no active tab the displayed cwd is set
to `null` without any `terminal_cwd` invocation, and a failing `terminal_cwd`
invocation is caught and likewise results in `null` — no error state exists
for this path. -/

/-- One execution of `syncActiveTerminalCwd`, given the active tab id (if
any) and the outcome of the `terminal_cwd` invocation (only consulted when a
tab is active; `.ok` may itself carry `none`, the backend's advisory null).
Returns the new `activeTerminalCwd` value and the invocations issued. -/
def syncActiveTerminalCwd (activeTabId : Option String)
    (cwdResult : Except String (Option String)) :
    Option String × List Call :=
  match activeTabId with
  | none => (none, [])
  | some _ =>
    match cwdResult with
    | .ok cwd => (cwd, [Call.terminalCwd])
    | .error _ => (none, [Call.terminalCwd])

/-! ## Branch switching (`switchBranch` in `GitPanel.vue`)

`switchBranch` trims the requested name, early-returns (a normal, non-error
return) when there is no repo path, the trimmed target is empty, a checkout
is already in flight, or the target equals the tracked current branch; only
otherwise does it invoke `git_checkout` (followed by a refresh, whose
invocations are supplied opaquely). -/

/-- Invocations issued and error message produced by one `switchBranch`
call. `refreshCalls` stands for the invocations of the `refresh()` awaited
after a real checkout; `checkoutError` is the outcome of the `git_checkout`
invocation itself. -/
def switchBranch (repoPath : Option String) (currentBranch : String)
    (checkoutLoading : Bool) (branch : String)
    (checkoutError : Option String) (refreshCalls : List Call) :
    List Call × Option String :=
  let target := jsTrim branch
  if repoPath.isNone || target = "" || checkoutLoading then ([], none)
  else if target = currentBranch then ([], none)
  else
    match checkoutError with
    | some e => ([Call.gitCheckout], some e)
    | none => (Call.gitCheckout :: refreshCalls, none)

/-! ## Commit (`commitChanges` / `canCommit` in `GitPanel.vue`, and the
`git_commit` backend contract) -/

/-- Computed `commitDisabledReason`: the first applicable reason the commit button is
disabled, or `none` when committing is possible. -/
def commitDisabledReason (commitLoading : Bool) (stagedCount : Nat)
    (commitMessage : String) : Option String :=
  if commitLoading then some "Committing changes"
  else if stagedCount = 0 then some "Stage files before commit"
  else if (jsTrim commitMessage).length = 0 then some "Enter a commit message"
  else none

/-- Computed `canCommit`: committing is possible exactly when no disabled reason
applies. -/
def canCommit (commitLoading : Bool) (stagedCount : Nat)
    (commitMessage : String) : Bool :=
  (commitDisabledReason commitLoading stagedCount commitMessage).isNone

/-- Invocations issued by one `commitChanges(amend)` call: guarded by
`canCommit` and the presence of a repo path; only then is `git_commit`
invoked (followed by an awaited refresh, supplied opaquely). -/
def commitChanges (commitLoading : Bool) (stagedCount : Nat)
    (commitMessage : String) (repoPath : Option String) (amend : Bool)
    (refreshCalls : List Call) : List Call :=
  if !(canCommit commitLoading stagedCount commitMessage) then []
  else if repoPath.isNone then []
  else Call.gitCommit :: refreshCalls

/-- Typed git errors of the backend contract (spec §7 taxonomy, restricted
to the constructors these claims need). -/
inductive GitError where
  | emptyMessage
  | nothingStaged
  deriving DecidableEq, Repr

/-- Modelled from the spec: the repository's Rust backend implementing the
`git_commit` command is not among the provided sources. Per spec §4.2,
`commit(repoPath, message, amend)` "fails with `EmptyMessage` if the trimmed
message is empty (including for amend); fails with `NothingStaged` if the
index has no staged changes and `amend=false`"; otherwise it succeeds and
advances the branch tip. `stagedCount` abstracts the number of staged
changes in the index. -/
def gitCommit (message : String) (amend : Bool) (stagedCount : Nat) :
    Except GitError Unit :=
  if jsTrim message = "" then .error .emptyMessage
  else if stagedCount = 0 && !amend then .error .nothingStaged
  else .ok ()

/-! ## One refresh cycle (`refresh` body in `GitPanel.vue`)

The non-coalescing body of `refresh()` — the part that runs when no refresh
is in flight — performs one `git_status` invocation; on success it stores
the status, runs `loadBranches` (one `git_branches` invocation whose failure
is caught inside `loadBranches` itself), updates the selection, and loads
the diff of the selected path if any; on failure it records the error
message. The coalescing wrapper around this body is modelled separately as
a state machine below. -/

/-- Panel state touched by one refresh cycle. -/
structure PanelState where
  status : Option GitStatusResponse
  selectedPath : Option String
  lastRepoPath : Option String
  errorMsg : Option String
  branches : List String
  currentBranch : String
  deriving DecidableEq, Repr

/-- Function `loadBranches`: stores the `git_branches` response, falling back to an
empty branch list and empty current-branch name when the invocation fails
(the failure is caught inside `loadBranches` and not re-thrown). -/
def loadBranches (s : PanelState)
    (res : Except String GitBranchesResponse) : PanelState :=
  match res with
  | .ok r => { s with branches := r.branches, currentBranch := r.current }
  | .error _ => { s with branches := [], currentBranch := "" }

/-- Selection update inside `refresh`: with an empty change list the
selection is cleared; otherwise the previous selection is kept when still
present among the new changes, else the first change's path is selected. -/
def updateSelection (prev : Option String) (changes : List GitChange) :
    Option String :=
  if changes.isEmpty then none
  else if changes.any (fun c => prev = some c.path) then prev
  else (changes.head?).map (fun c => c.path)

/-- One refresh cycle, given the outcomes of the `git_status` and
`git_branches` invocations. Returns the panel state after the cycle together
with the list of invocations issued (a `git_diff` is issued via `loadDiff`
exactly when a path ends up selected). `error.value` is reset to `null`
before the try block, so it is `none` on success and the status error
message on failure. -/
def refreshCycle (s : PanelState)
    (statusRes : Except String GitStatusResponse)
    (branchesRes : Except String GitBranchesResponse) :
    PanelState × List Call :=
  match statusRes with
  | .error e =>
    ({ s with errorMsg := some e }, [Call.gitStatus])
  | .ok ns =>
    let s1 := { s with status := some ns, lastRepoPath := some ns.repoPath,
                       errorMsg := none }
    let s2 := loadBranches s1 branchesRes
    let sel := updateSelection s.selectedPath ns.changes
    let s3 := { s2 with selectedPath := sel }
    (s3, [Call.gitStatus, Call.gitBranches] ++
      (if sel.isSome then [Call.gitDiff] else []))

/-! ## Refresh coalescing (`refresh` wrapper in `GitPanel.vue`)

The coalescing wrapper: a `refresh()` call arriving while another is in
flight only sets `refreshQueued` and returns; otherwise it sets
`refreshInFlight`, issues `git_status`, and in its `finally` clause clears
`refreshInFlight` and, when `refreshQueued` was set, clears the flag and
re-invokes `refresh()` — which, `refreshInFlight` now being false, starts
exactly one follow-up `git_status`. We attach an ambient clock to the trace
and record, for each `git_status` invocation, the time it was issued; a
completion delivers a repository snapshot taken at some time `snap` between
issue and completion. -/

/-- Coalescing state of the panel's `refresh` machinery. `statusIssues`
records the issue time of every `git_status` invocation performed so far;
`visibleSnap` is the snapshot time of the status currently visible. -/
structure RefreshState where
  refreshInFlight : Bool
  refreshQueued : Bool
  statusIssues : List Nat
  visibleSnap : Option Nat
  deriving DecidableEq, Repr

/-- Initial state: no refresh in flight, nothing queued, no status visible. -/
def RefreshState.init : RefreshState :=
  { refreshInFlight := false, refreshQueued := false,
    statusIssues := [], visibleSnap := none }

/-- Events of the coalescing machine: a `refresh()` call arriving, or the
in-flight `git_status` completing with a snapshot taken at time `snap`. -/
inductive RefreshEv where
  | call
  | complete (snap : Nat)
  deriving DecidableEq, Repr

/-- One step of the coalescing machine at time `now`. A `call` while in
flight only sets the queued flag; otherwise it starts an underlying
`git_status`. A `complete` publishes the snapshot, then runs the `finally`
clause: clear `refreshInFlight`, and when queued, clear the flag and
immediately re-enter `refresh()`, issuing the follow-up `git_status`. -/
def refreshStep (now : Nat) (s : RefreshState) (e : RefreshEv) :
    RefreshState :=
  match e with
  | .call =>
    if s.refreshInFlight then { s with refreshQueued := true }
    else { s with refreshInFlight := true,
                  statusIssues := s.statusIssues ++ [now] }
  | .complete snap =>
    if s.refreshInFlight then
      let s1 := { s with visibleSnap := some snap }
      if s1.refreshQueued then
        { s1 with refreshQueued := false, refreshInFlight := true,
                  statusIssues := s1.statusIssues ++ [now] }
      else
        { s1 with refreshInFlight := false }
    else s

/-- Run the coalescing machine over a timed event trace. -/
def refreshRun (s : RefreshState) : List (Nat × RefreshEv) → RefreshState
  | [] => s
  | (t, e) :: rest => refreshRun (refreshStep t s e) rest

/-- The burst scenario: one `refresh()` call at time 0, `n` further calls at
times `1, …, n` (all while the first `git_status` is in flight), the first
completion at time `n + 1` with snapshot time `snap₁`, and the follow-up
completion at time `m` with snapshot time `snap₂`. -/
def burstTrace (n : Nat) (snap₁ snap₂ m : Nat) : List (Nat × RefreshEv) :=
  (0, RefreshEv.call) ::
    (List.range n).map (fun i => (i + 1, RefreshEv.call)) ++
    [(n + 1, RefreshEv.complete snap₁), (m, RefreshEv.complete snap₂)]

/-! ## Timer teardown (`TerminalPane.vue` resize debounce and the root
component's cwd-polling interval)

We model the browser timer table as the list of live (scheduled, not yet
cleared or fired) timer ids owned by the component. `clearTimeout` /
`clearInterval` remove an id; a timeout fires only while live and is spent
by firing; an interval stays live after a tick. -/

/-- State of one `TerminalPane`'s resize-debounce machinery:
`resizeDebounce` mirrors the nullable id variable, `live` the pane's live
timeout ids in the browser's timer table, `nextId` the next fresh timer id,
`resizeCalls` the number of `resize_terminal` invocations issued by
debounce callbacks, and `unmounted` whether `onBeforeUnmount` has run
(after which the disposed terminal emits no further `onResize` events). -/
structure PaneState where
  resizeDebounce : Option Nat
  live : List Nat
  nextId : Nat
  resizeCalls : Nat
  unmounted : Bool
  deriving DecidableEq, Repr

/-- Initial pane state: no debounce scheduled, no live timer. -/
def PaneState.init : PaneState :=
  { resizeDebounce := none, live := [], nextId := 0,
    resizeCalls := 0, unmounted := false }

/-- Events of the pane machine: an `onResize` notification from the
terminal, the browser firing the timeout with id `id`, and the component's
`onBeforeUnmount` hook. -/
inductive PaneEv where
  | resize
  | fire (id : Nat)
  | unmount
  deriving DecidableEq, Repr

/-- One step of the pane machine. `resize` clears any pending debounce and
schedules a fresh 24ms timeout; `fire id` is the browser delivering that
timeout — it runs the callback (one `resize_terminal` invocation, then
`resizeDebounce = null`) only if the id is still live; `unmount` clears the
pending debounce, after which the terminal is disposed and no further
`resize` events occur. -/
def paneStep (s : PaneState) (e : PaneEv) : PaneState :=
  match e with
  | .resize =>
    if s.unmounted then s
    else
      let cleared :=
        match s.resizeDebounce with
        | some id => s.live.erase id
        | none => s.live
      { s with resizeDebounce := some s.nextId,
               live := cleared ++ [s.nextId],
               nextId := s.nextId + 1 }
  | .fire id =>
    if id ∈ s.live then
      { s with live := s.live.erase id,
               resizeCalls := s.resizeCalls + 1,
               resizeDebounce := none }
    else s
  | .unmount =>
    let cleared :=
      match s.resizeDebounce with
      | some id => s.live.erase id
      | none => s.live
    { s with live := cleared, unmounted := true }

/-- Run the pane machine over an event trace. -/
def paneRun (s : PaneState) : List PaneEv → PaneState
  | [] => s
  | e :: rest => paneRun (paneStep s e) rest

/-- State of the root component's cwd-polling interval: the nullable
`cwdPollTimer` id, the component's live interval ids, the number of
`terminal_cwd` polls issued, and whether `onBeforeUnmount` has run. -/
structure AppTimerState where
  cwdPollTimer : Option Nat
  live : List Nat
  polls : Nat
  unmounted : Bool
  deriving DecidableEq, Repr

/-- State right after the root component's `onMounted`: `setInterval`
returned id 0, which is live (the synchronous initial
`syncActiveTerminalCwd()` poll is not a timer tick and is not counted
here). -/
def AppTimerState.mounted : AppTimerState :=
  { cwdPollTimer := some 0, live := [0], polls := 0, unmounted := false }

/-- Events of the app timer machine: the browser delivering an interval
tick for id `id`, and the root component's `onBeforeUnmount` hook. -/
inductive AppEv where
  | tick (id : Nat)
  | unmount
  deriving DecidableEq, Repr

/-- One step of the app timer machine. An interval tick runs only while the
id is live, issues one `terminal_cwd` poll, and leaves the interval live;
`unmount` runs `clearInterval` on the pending id. -/
def appStep (s : AppTimerState) (e : AppEv) : AppTimerState :=
  match e with
  | .tick id =>
    if id ∈ s.live then { s with polls := s.polls + 1 } else s
  | .unmount =>
    let cleared :=
      match s.cwdPollTimer with
      | some id => s.live.erase id
      | none => s.live
    { s with live := cleared, unmounted := true }

/-- Run the app timer machine over an event trace. -/
def appRun (s : AppTimerState) : List AppEv → AppTimerState
  | [] => s
  | e :: rest => appRun (appStep s e) rest

/-! ## Tab lifecycle (`closeTab` in the root component) -/

/-- A terminal tab record. -/
structure TerminalTab where
  id : String
  projectId : String
  title : String
  deriving DecidableEq, Repr

/-- Tab-related slice of the root component's persisted state. -/
structure WorkspaceState where
  tabs : List TerminalTab
  activeTabId : Option String
  deriving DecidableEq, Repr

/-- Function `closeTab(tabId)`: look the tab up (no-op when absent), remove it, push
a replacement tab titled "session-1" for the same project when no tab of
that project remains, and re-point `activeTabId` to the first tab of that
project when the closed tab was active. `freshId` stands for the random id
produced by `uid("tab")` for the replacement. -/
def closeTab (s : WorkspaceState) (freshId : String) (tabId : String) :
    WorkspaceState :=
  match s.tabs.find? (fun t => t.id = tabId) with
  | none => s
  | some tab =>
    let tabs1 := s.tabs.filter (fun t => ¬(t.id = tabId))
    let tabs2 :=
      if tabs1.any (fun t => t.projectId = tab.projectId) then tabs1
      else tabs1 ++ [{ id := freshId, projectId := tab.projectId,
                       title := "session-1" }]
    let active :=
      if s.activeTabId = some tabId then
        (tabs2.find? (fun t => t.projectId = tab.projectId)).map (fun t => t.id)
      else s.activeTabId
    { tabs := tabs2, activeTabId := active }

/-! ## Derived combinations used by the statements below -/

/-- Final coalescing state after a full burst of `1 + n` refresh calls and
the two completions. -/
def burstFinal (n snap₁ snap₂ m : Nat) : RefreshState :=
  refreshRun RefreshState.init (burstTrace n snap₁ snap₂ m)

/-- Pane state after an arbitrary pre-unmount history `evs` followed by the
`onBeforeUnmount` teardown. -/
def paneAfterUnmount (evs : List PaneEv) : PaneState :=
  paneRun PaneState.init (evs ++ [PaneEv.unmount])

/-- App timer state after an arbitrary post-mount history `aevs` followed by
the `onBeforeUnmount` teardown. -/
def appAfterUnmount (aevs : List AppEv) : AppTimerState :=
  appRun AppTimerState.mounted (aevs ++ [AppEv.unmount])

/-- Invariant of the pane timer machine: while mounted, the pane's live
timeout ids are exactly the pending debounce id; after unmount, none
remain. -/
def PaneInv (s : PaneState) : Prop :=
  s.live = if s.unmounted then [] else s.resizeDebounce.toList

/-- Invariant of the app timer machine: while mounted, the interval
registered by `onMounted` is the single live timer; after unmount, none
remain. -/
def AppInv (s : AppTimerState) : Prop :=
  (s.unmounted = false → s.live = [0] ∧ s.cwdPollTimer = some 0) ∧
  (s.unmounted = true → s.live = [])

/-! # Theorems -/

/-- C2: Diff token staleness — with `requestDiff(B)` issued after
`requestDiff(A)` and before A completes, the stale resolution of A (success
or failure) changes no caller-visible state, and in either resolution order
the rendered diff is B's result, never A's. -/
theorem diff_token_staleness (s : DiffState) (okA okB : Bool) :
    (resolveDiff (issueDiff (issueDiff s).1).1 (issueDiff s).2 okA
       = (issueDiff (issueDiff s).1).1)
  ∧ (resolveDiff (resolveDiff (issueDiff (issueDiff s).1).1 (issueDiff s).2 okA)
       (issueDiff (issueDiff s).1).2 okB).rendered
       = some ((issueDiff (issueDiff s).1).2, okB)
  ∧ (resolveDiff (resolveDiff (issueDiff (issueDiff s).1).1
         (issueDiff (issueDiff s).1).2 okB) (issueDiff s).2 okA
       = resolveDiff (issueDiff (issueDiff s).1).1
         (issueDiff (issueDiff s).1).2 okB)
  ∧ (resolveDiff (issueDiff (issueDiff s).1).1
       (issueDiff (issueDiff s).1).2 okB).rendered
       = some ((issueDiff (issueDiff s).1).2, okB) := by
  simp [issueDiff, resolveDiff]

/-- C3: Commit validation — `git_commit` fails with `EmptyMessage` when the
trimmed message is empty (for any `amend`), fails with `NothingStaged` when
nothing is staged and `amend = false`, and in both cases the panel's
`commitChanges` guard issues no `git_commit` invocation at all. -/
theorem commit_validation (msg : String) (amend : Bool) (stagedCount : Nat)
    (commitLoading : Bool) (repoPath : Option String)
    (refreshCalls : List Call) :
    (jsTrim msg = "" → gitCommit msg amend stagedCount
       = .error GitError.emptyMessage)
  ∧ (jsTrim msg ≠ "" → stagedCount = 0 → amend = false →
       gitCommit msg amend stagedCount = .error GitError.nothingStaged)
  ∧ (jsTrim msg = "" →
       commitChanges commitLoading stagedCount msg repoPath amend
         refreshCalls = [])
  ∧ (stagedCount = 0 →
       commitChanges commitLoading stagedCount msg repoPath amend
         refreshCalls = []) := by
  refine ⟨fun h => ?_, fun h1 h2 h3 => ?_, fun h => ?_, fun h => ?_⟩
  · simp [gitCommit, h]
  · simp [gitCommit, h1, h2, h3]
  · have hlen : (jsTrim msg).length = 0 := by simp [h]
    rcases Nat.eq_zero_or_pos stagedCount with h0 | h0
    · cases commitLoading <;>
        simp [commitChanges, canCommit, commitDisabledReason, h0]
    · cases commitLoading <;>
        simp [commitChanges, canCommit, commitDisabledReason, hlen, h0.ne']
  · cases commitLoading <;>
      simp [commitChanges, canCommit, commitDisabledReason, h]

/-- C3 witness at concrete inputs. -/
theorem commit_validation_witness :
    gitCommit "  " true 5 = .error GitError.emptyMessage
  ∧ gitCommit "fix" false 0 = .error GitError.nothingStaged
  ∧ commitChanges false 3 "   " (some "/repo") false [] = []
  ∧ commitChanges false 0 "fix" (some "/repo") false [] = [] :=
  ⟨(commit_validation "  " true 5 false (some "/repo") []).1 (by decide),
   (commit_validation "fix" false 0 false (some "/repo") []).2.1
     (by decide) rfl rfl,
   (commit_validation "   " false 3 false (some "/repo") []).2.2.1 (by decide),
   (commit_validation "fix" false 0 false (some "/repo") []).2.2.2 rfl⟩

/-- C4: No-op checkout — when the trimmed target branch equals the tracked
current branch, `switchBranch` returns normally (no error) without issuing
any `git_checkout` invocation. -/
theorem noop_checkout (repoPath : Option String) (currentBranch : String)
    (checkoutLoading : Bool) (branch : String)
    (checkoutError : Option String) (refreshCalls : List Call)
    (h : jsTrim branch = currentBranch) :
    switchBranch repoPath currentBranch checkoutLoading branch
      checkoutError refreshCalls = ([], none) := by
  simp [switchBranch, h]

/-- C4 witness at concrete inputs. -/
theorem noop_checkout_witness :
    switchBranch (some "/repo") "main" false " main " none
      [Call.gitStatus] = ([], none) :=
  noop_checkout (some "/repo") "main" false " main " none
    [Call.gitStatus] (by decide)

/-- C6: Per-session event delivery — a `terminal-data` or `terminal-exit`
event writes to the pane's terminal exactly when the event's `tabId` equals
the pane's tab id; any other session's events leave the terminal
unchanged. -/
theorem per_session_delivery (myTab evTab : String) (term : List String)
    (data : String) :
    (evTab = myTab →
       onTerminalData myTab term evTab data = term ++ [data]
     ∧ onTerminalExit myTab term evTab = term ++ ["\r\n[process exited]"])
  ∧ (evTab ≠ myTab →
       onTerminalData myTab term evTab data = term
     ∧ onTerminalExit myTab term evTab = term) := by
  refine ⟨fun h => ?_, fun h => ?_⟩ <;>
    simp [onTerminalData, onTerminalExit, h]

/-- C6 witness at concrete inputs. -/
theorem per_session_delivery_witness :
    onTerminalData "tab-a" ["x"] "tab-a" "hi" = ["x", "hi"]
  ∧ onTerminalData "tab-a" ["x"] "tab-b" "hi" = ["x"]
  ∧ onTerminalExit "tab-a" ["x"] "tab-b" = ["x"] :=
  ⟨((per_session_delivery "tab-a" "tab-a" ["x"] "hi").1 rfl).1,
   ((per_session_delivery "tab-a" "tab-b" ["x"] "hi").2 (by decide)).1,
   ((per_session_delivery "tab-a" "tab-b" ["x"] "hi").2 (by decide)).2⟩

/-- C8: Advisory cwd lookup — with no active tab the displayed cwd becomes
`null` and no `terminal_cwd` invocation is issued; with an active tab, a
failing `terminal_cwd` invocation is caught and the displayed cwd becomes
`null` (no error is surfaced — the function has no error channel). -/
theorem advisory_cwd (res : Except String (Option String))
    (tab msg : String) :
    syncActiveTerminalCwd none res = (none, [])
  ∧ syncActiveTerminalCwd (some tab) (.error msg)
      = (none, [Call.terminalCwd]) := by
  cases res <;> simp [syncActiveTerminalCwd]

/-- C7: Best-effort branch listing — a successful refresh cycle performs
exactly one `git_status` and one `git_branches` invocation, and a failure of
the `git_branches` call does not fail the refresh: the status result is
still stored, no error is recorded, and the branch list and current-branch
name fall back to empty values. -/
theorem best_effort_branches (s : PanelState) (ns : GitStatusResponse)
    (msg : String) (br : Except String GitBranchesResponse) :
    ((refreshCycle s (.ok ns) br).2.count Call.gitStatus = 1)
  ∧ ((refreshCycle s (.ok ns) br).2.count Call.gitBranches = 1)
  ∧ ((refreshCycle s (.ok ns) (.error msg)).1.errorMsg = none)
  ∧ ((refreshCycle s (.ok ns) (.error msg)).1.status = some ns)
  ∧ ((refreshCycle s (.ok ns) (.error msg)).1.branches = [])
  ∧ ((refreshCycle s (.ok ns) (.error msg)).1.currentBranch = "") := by
  refine ⟨?_, ?_, ?_, ?_, ?_, ?_⟩ <;>
    simp [refreshCycle, loadBranches] <;>
    split <;>
    simp [List.count_cons, List.count_append, List.count_singleton]

/-- The selection after a successful refresh cycle is exactly
`updateSelection` of the previous selection and the new change list. -/
theorem refreshCycle_selectedPath (s : PanelState) (ns : GitStatusResponse)
    (br : Except String GitBranchesResponse) :
    (refreshCycle s (.ok ns) br).1.selectedPath
      = updateSelection s.selectedPath ns.changes := by
  cases br <;> simp [refreshCycle, loadBranches]

/-- When the previous selection is still present among the new changes, it
is kept. -/
theorem updateSelection_of_any (prev : Option String)
    (changes : List GitChange)
    (h : changes.any (fun c => prev = some c.path) = true) :
    updateSelection prev changes = prev := by
  have hne : changes ≠ [] := by
    intro he
    rw [he] at h
    simp at h
  rw [updateSelection, if_neg (by simp [hne]), if_pos h]

/-- When the previous selection is gone (and the list is non-empty), the
first change's path is selected. -/
theorem updateSelection_of_not_any (prev : Option String)
    (changes : List GitChange) (hne : changes ≠ [])
    (h : changes.any (fun c => prev = some c.path) = false) :
    updateSelection prev changes = (changes.head?).map (fun c => c.path) := by
  rw [updateSelection, if_neg (by simp [hne]), if_neg (by simp [h])]

/-- A non-empty change list always yields a selection that is the path of
one of its entries. -/
theorem updateSelection_mem (prev : Option String)
    (changes : List GitChange) (hne : changes ≠ []) :
    ∃ c ∈ changes, updateSelection prev changes = some c.path := by
  rcases hany : changes.any (fun c => prev = some c.path) with _ | _
  · rcases changes with _ | ⟨c, rest⟩
    · exact absurd rfl hne
    · exact ⟨c, List.mem_cons_self c rest,
        by rw [updateSelection_of_not_any prev _ hne hany]; rfl⟩
  · rcases List.any_eq_true.mp hany with ⟨c, hc, hpc⟩
    refine ⟨c, hc, ?_⟩
    rw [updateSelection_of_any prev changes hany]
    exact of_decide_eq_true hpc

/-- The selection is cleared exactly on an empty change list. -/
theorem updateSelection_eq_none_iff (prev : Option String)
    (changes : List GitChange) :
    updateSelection prev changes = none ↔ changes = [] := by
  constructor
  · intro h
    by_contra hne
    rcases updateSelection_mem prev changes hne with ⟨c, _, hc⟩
    rw [h] at hc
    exact Option.noConfusion hc
  · intro h
    rw [h, updateSelection]
    simp

/-- C9: Selection invariant — after every successful refresh the selected
path is `null` exactly when the change list is empty; on a non-empty list
the selection is the path of some entry: the previous selection when still
present, otherwise the first change in the list. -/
theorem selection_invariant (s : PanelState) (ns : GitStatusResponse)
    (br : Except String GitBranchesResponse) :
    ((refreshCycle s (.ok ns) br).1.selectedPath = none ↔ ns.changes = [])
  ∧ (ns.changes ≠ [] →
       (∃ c ∈ ns.changes,
          (refreshCycle s (.ok ns) br).1.selectedPath = some c.path)
     ∧ (ns.changes.any (fun c => s.selectedPath = some c.path) = true →
          (refreshCycle s (.ok ns) br).1.selectedPath = s.selectedPath)
     ∧ (ns.changes.any (fun c => s.selectedPath = some c.path) = false →
          (refreshCycle s (.ok ns) br).1.selectedPath
            = (ns.changes.head?).map (fun c => c.path))) := by
  rw [refreshCycle_selectedPath s ns br]
  exact ⟨updateSelection_eq_none_iff s.selectedPath ns.changes,
    fun hne =>
      ⟨updateSelection_mem s.selectedPath ns.changes hne,
       fun h => updateSelection_of_any s.selectedPath ns.changes h,
       fun h => updateSelection_of_not_any s.selectedPath ns.changes hne h⟩⟩

/-- C9 witness at concrete inputs: with `b.txt` previously selected and
still among the new changes, the refresh keeps it selected; the change list
being non-empty, the selection is non-null. -/
theorem selection_invariant_witness :
    (refreshCycle
      { status := none, selectedPath := some "b.txt", lastRepoPath := none,
        errorMsg := none, branches := [], currentBranch := "" }
      (.ok { repoPath := "/r", branch := "main", ahead := 0, behind := 0,
             changes := [{ path := "a.txt", statusCode := "M",
                           staged := true, unstaged := false,
                           untracked := false },
                         { path := "b.txt", statusCode := "M",
                           staged := false, unstaged := true,
                           untracked := false }] })
      (.ok { current := "main", branches := ["main"] })).1.selectedPath
      = some "b.txt" :=
  ((selection_invariant
      { status := none, selectedPath := some "b.txt", lastRepoPath := none,
        errorMsg := none, branches := [], currentBranch := "" }
      { repoPath := "/r", branch := "main", ahead := 0, behind := 0,
        changes := [{ path := "a.txt", statusCode := "M",
                      staged := true, unstaged := false,
                      untracked := false },
                    { path := "b.txt", statusCode := "M",
                      staged := false, unstaged := true,
                      untracked := false }] }
      (.ok { current := "main", branches := ["main"] })).2
    (by decide)).2.1 (by decide)

/-- C10: Tab replacement invariant — closing an existing tab never leaves
its project with zero tabs: when the closed tab was the last of its project
a replacement titled "session-1" is created for that project, and when the
closed tab was active the active tab id is re-pointed to a tab of the same
project. -/
theorem tab_replacement (s : WorkspaceState) (freshId tabId : String)
    (tab : TerminalTab)
    (hfind : s.tabs.find? (fun t => t.id = tabId) = some tab) :
    (∃ t ∈ (closeTab s freshId tabId).tabs, t.projectId = tab.projectId)
  ∧ ((s.tabs.filter (fun t => ¬(t.id = tabId))).any
        (fun t => t.projectId = tab.projectId) = false →
      ({ id := freshId, projectId := tab.projectId,
         title := "session-1" } : TerminalTab)
        ∈ (closeTab s freshId tabId).tabs)
  ∧ (s.activeTabId = some tabId →
      ∃ t ∈ (closeTab s freshId tabId).tabs,
        (closeTab s freshId tabId).activeTabId = some t.id
        ∧ t.projectId = tab.projectId) := by
  rw [closeTab, hfind]
  set tabs1 := s.tabs.filter (fun t => ¬(t.id = tabId)) with htabs1
  rcases hany : tabs1.any (fun t => t.projectId = tab.projectId) with _ | _
  all_goals simp only [hany, Bool.false_eq_true, if_false, if_true, cond_eq_if]
  · -- the closed tab was the last of its project: a replacement is pushed
    set repl : TerminalTab :=
      { id := freshId, projectId := tab.projectId, title := "session-1" }
      with hrepl
    have hreplmem : repl ∈ tabs1 ++ [repl] := by simp
    have hproj : ∃ t ∈ tabs1 ++ [repl], t.projectId = tab.projectId :=
      ⟨repl, hreplmem, rfl⟩
    refine ⟨hproj, fun _ => hreplmem, fun hact => ?_⟩
    have hsome : ((tabs1 ++ [repl]).find?
        (fun t => t.projectId = tab.projectId)).isSome := by
      rw [List.find?_isSome]
      exact ⟨repl, hreplmem, by simp⟩
    rcases Option.isSome_iff_exists.mp hsome with ⟨t', ht'⟩
    have hp := List.find?_some ht'
    refine ⟨t', List.mem_of_find?_eq_some ht', ?_, of_decide_eq_true hp⟩
    simp [hact, ht']
  · -- other tabs of the project remain
    rcases List.any_eq_true.mp hany with ⟨c, hc, hpc⟩
    have hproj : ∃ t ∈ tabs1, t.projectId = tab.projectId :=
      ⟨c, hc, of_decide_eq_true hpc⟩
    refine ⟨hproj, fun hfalse => Bool.noConfusion hfalse, fun hact => ?_⟩
    have hsome : (tabs1.find?
        (fun t => t.projectId = tab.projectId)).isSome := by
      rw [List.find?_isSome]
      exact ⟨c, hc, hpc⟩
    rcases Option.isSome_iff_exists.mp hsome with ⟨t', ht'⟩
    have hp := List.find?_some ht'
    refine ⟨t', List.mem_of_find?_eq_some ht', ?_, of_decide_eq_true hp⟩
    simp [hact, ht']

/-- C10 witness at concrete inputs: closing the only tab of its project
creates a "session-1" replacement for that project. -/
theorem tab_replacement_witness :
    ({ id := "tab-f", projectId := "p1", title := "session-1" } : TerminalTab)
      ∈ (closeTab
          { tabs := [{ id := "tab-1", projectId := "p1",
                       title := "session-3" }],
            activeTabId := some "tab-1" } "tab-f" "tab-1").tabs :=
  ((tab_replacement
      { tabs := [{ id := "tab-1", projectId := "p1", title := "session-3" }],
        activeTabId := some "tab-1" } "tab-f" "tab-1"
      { id := "tab-1", projectId := "p1", title := "session-3" }
      (by decide)).2.1 (by decide))

/-- Running the coalescing machine over a concatenated trace runs the two
parts in sequence. -/
theorem refreshRun_append (s : RefreshState)
    (l1 l2 : List (Nat × RefreshEv)) :
    refreshRun s (l1 ++ l2) = refreshRun (refreshRun s l1) l2 := by
  induction l1 generalizing s with
  | nil => rfl
  | cons p rest ih =>
    obtain ⟨t, e⟩ := p
    rw [List.cons_append, refreshRun, refreshRun, ih]

/-- While a refresh is in flight with the queued flag already set, further
`refresh()` calls are absorbed without any state change. -/
theorem refreshRun_all_calls (s : RefreshState)
    (l : List (Nat × RefreshEv))
    (hf : s.refreshInFlight = true) (hq : s.refreshQueued = true)
    (hl : ∀ p ∈ l, p.2 = RefreshEv.call) :
    refreshRun s l = s := by
  induction l with
  | nil => rfl
  | cons p rest ih =>
    obtain ⟨t, e⟩ := p
    have he : e = RefreshEv.call := hl (t, e) (List.mem_cons_self _ _)
    subst he
    have hstep : refreshStep t s RefreshEv.call = s := by
      cases s
      simp_all [refreshStep]
    rw [refreshRun, hstep]
    exact ih fun p hp => hl p (List.mem_cons_of_mem _ hp)

/-- C1: Refresh coalescing — a burst of one `refresh()` call (time 0)
followed by `n ≥ 1` further calls while the first is in flight (times
`1..n`) performs exactly 2 underlying `git_status` invocations (issued at
times 0 and `n+1`), finishes with no refresh in flight or queued, and the
final visible status is the follow-up snapshot, taken at or after the
follow-up's issue time and hence strictly after the last call of the
burst. -/
theorem refresh_coalescing (n : Nat) (hn : 1 ≤ n) (snap₁ snap₂ m : Nat)
    (hsnap : n + 1 ≤ snap₂) :
    (burstFinal n snap₁ snap₂ m).statusIssues = [0, n + 1]
  ∧ (burstFinal n snap₁ snap₂ m).statusIssues.length = 2
  ∧ (burstFinal n snap₁ snap₂ m).visibleSnap = some snap₂
  ∧ n < snap₂
  ∧ (burstFinal n snap₁ snap₂ m).refreshInFlight = false
  ∧ (burstFinal n snap₁ snap₂ m).refreshQueued = false := by
  obtain ⟨k, rfl⟩ : ∃ k, n = k + 1 :=
    ⟨n - 1, (Nat.succ_pred_eq_of_pos hn).symm⟩
  have hrun : burstFinal (k + 1) snap₁ snap₂ m =
      { refreshInFlight := false, refreshQueued := false,
        statusIssues := [0, k + 1 + 1], visibleSnap := some snap₂ } := by
    unfold burstFinal burstTrace
    rw [List.range_succ_eq_map]
    simp only [List.map_cons, List.map_map, List.cons_append]
    rw [refreshRun, refreshRun]
    have h1 : refreshStep 1 (refreshStep 0 RefreshState.init RefreshEv.call)
        RefreshEv.call
        = { refreshInFlight := true, refreshQueued := true,
            statusIssues := [0], visibleSnap := none } := by
      simp [refreshStep, RefreshState.init]
    rw [h1, refreshRun_append]
    rw [refreshRun_all_calls
      { refreshInFlight := true, refreshQueued := true,
        statusIssues := [0], visibleSnap := none } _ rfl rfl (by simp)]
    simp [refreshRun, refreshStep]
  refine ⟨by rw [hrun], by rw [hrun]; rfl, by rw [hrun],
    lt_of_lt_of_le (Nat.lt_succ_self _) hsnap, by rw [hrun], by rw [hrun]⟩

/-- C1 witness at concrete inputs: a burst of 1 + 3 calls, first completion
at time 4 with snapshot time 2, follow-up completion at time 6 with
snapshot time 5. -/
theorem refresh_coalescing_witness :
    (burstFinal 3 2 5 6).statusIssues.length = 2
  ∧ (burstFinal 3 2 5 6).visibleSnap = some 5
  ∧ 3 < 5 :=
  ⟨(refresh_coalescing 3 (by decide) 2 5 6 (by decide)).2.1,
   (refresh_coalescing 3 (by decide) 2 5 6 (by decide)).2.2.1,
   (refresh_coalescing 3 (by decide) 2 5 6 (by decide)).2.2.2.1⟩

/-- Running the pane machine over a concatenated trace runs the parts in
sequence. -/
theorem paneRun_append (s : PaneState) (l1 l2 : List PaneEv) :
    paneRun s (l1 ++ l2) = paneRun (paneRun s l1) l2 := by
  induction l1 generalizing s with
  | nil => rfl
  | cons e rest ih => rw [List.cons_append, paneRun, paneRun, ih]

/-- Every pane step preserves the timer invariant. -/
theorem paneStep_inv (s : PaneState) (e : PaneEv) (h : PaneInv s) :
    PaneInv (paneStep s e) := by
  obtain ⟨d, live, nid, rc, um⟩ := s
  simp only [PaneInv] at h ⊢
  cases e with
  | resize =>
    cases um
    · cases d <;> simp_all [paneStep]
    · simp_all [paneStep]
  | fire id =>
    cases um
    · cases d with
      | none => simp_all [paneStep]
      | some j =>
        simp only [if_neg Bool.false_ne_true, Option.toList] at h
        subst h
        by_cases hij : id ∈ [j] <;> simp_all [paneStep]
    · simp_all [paneStep]
  | unmount =>
    cases um <;> cases d <;> simp_all [paneStep]

/-- The timer invariant holds along every pane trace. -/
theorem paneRun_inv (s : PaneState) (l : List PaneEv) (h : PaneInv s) :
    PaneInv (paneRun s l) := by
  induction l generalizing s with
  | nil => exact h
  | cons e rest ih => exact ih _ (paneStep_inv s e h)

/-- After unmount with no live timers, the pane machine is inert: no event
changes its state (in particular no `resize_terminal` invocation is ever
added). -/
theorem paneRun_fixed (s : PaneState) (hum : s.unmounted = true)
    (hl : s.live = []) (l : List PaneEv) : paneRun s l = s := by
  induction l with
  | nil => rfl
  | cons e rest ih =>
    have hstep : paneStep s e = s := by
      obtain ⟨d, live, nid, rc, um⟩ := s
      cases e <;> cases d <;> simp_all [paneStep]
    rw [paneRun, hstep]
    exact ih

/-- The `onBeforeUnmount` teardown step clears every live pane timer. -/
theorem paneStep_unmount_spec (x : PaneState) (h : PaneInv x) :
    (paneStep x PaneEv.unmount).live = []
    ∧ (paneStep x PaneEv.unmount).unmounted = true := by
  obtain ⟨d, live, nid, rc, um⟩ := x
  simp only [PaneInv] at h
  cases um <;> cases d <;> simp_all [paneStep]

/-- The teardown in `onBeforeUnmount` leaves the pane with no live timer. -/
theorem paneAfterUnmount_spec (evs : List PaneEv) :
    (paneAfterUnmount evs).live = []
    ∧ (paneAfterUnmount evs).unmounted = true := by
  have hinv : PaneInv (paneRun PaneState.init evs) :=
    paneRun_inv PaneState.init evs (by simp [PaneInv, PaneState.init])
  have hrw : paneAfterUnmount evs
      = paneStep (paneRun PaneState.init evs) PaneEv.unmount := by
    unfold paneAfterUnmount
    rw [paneRun_append]
    rfl
  rw [hrw]
  exact paneStep_unmount_spec _ hinv

/-- Running the app timer machine over a concatenated trace runs the parts
in sequence. -/
theorem appRun_append (s : AppTimerState) (l1 l2 : List AppEv) :
    appRun s (l1 ++ l2) = appRun (appRun s l1) l2 := by
  induction l1 generalizing s with
  | nil => rfl
  | cons e rest ih => rw [List.cons_append, appRun, appRun, ih]

/-- Every app timer step preserves the interval invariant. -/
theorem appStep_inv (s : AppTimerState) (e : AppEv) (h : AppInv s) :
    AppInv (appStep s e) := by
  obtain ⟨d, live, polls, um⟩ := s
  obtain ⟨hmounted, hdone⟩ := h
  cases e with
  | tick id =>
    by_cases hid : id ∈ live <;>
      refine ⟨fun hu => ?_, fun hu => ?_⟩ <;>
      simp_all [appStep]
  | unmount =>
    refine ⟨fun hu => ?_, fun hu => ?_⟩
    · simp [appStep] at hu
    · cases um
      · obtain ⟨hl, hd⟩ := hmounted rfl
        subst hl
        subst hd
        simp [appStep]
      · have hl := hdone rfl
        subst hl
        cases d <;> simp [appStep]

/-- The interval invariant holds along every app timer trace. -/
theorem appRun_inv (s : AppTimerState) (l : List AppEv) (h : AppInv s) :
    AppInv (appRun s l) := by
  induction l generalizing s with
  | nil => exact h
  | cons e rest ih => exact ih _ (appStep_inv s e h)

/-- After unmount with no live interval, the app timer machine is inert: no
tick ever issues another `terminal_cwd` poll. -/
theorem appRun_fixed (s : AppTimerState) (hum : s.unmounted = true)
    (hl : s.live = []) (l : List AppEv) : appRun s l = s := by
  induction l with
  | nil => rfl
  | cons e rest ih =>
    have hstep : appStep s e = s := by
      obtain ⟨d, live, polls, um⟩ := s
      cases e <;> cases d <;> simp_all [appStep]
    rw [appRun, hstep]
    exact ih

/-- The `onBeforeUnmount` teardown step clears the live interval. -/
theorem appStep_unmount_spec (x : AppTimerState) (h : AppInv x) :
    (appStep x AppEv.unmount).live = []
    ∧ (appStep x AppEv.unmount).unmounted = true := by
  obtain ⟨d, live, polls, um⟩ := x
  obtain ⟨hmounted, hdone⟩ := h
  cases um
  · obtain ⟨hl, hd⟩ := hmounted rfl
    subst hl
    subst hd
    simp [appStep]
  · have hl := hdone rfl
    subst hl
    cases d <;> simp [appStep]

/-- The teardown in the root component's `onBeforeUnmount` leaves no live
interval. -/
theorem appAfterUnmount_spec (aevs : List AppEv) :
    (appAfterUnmount aevs).live = []
    ∧ (appAfterUnmount aevs).unmounted = true := by
  have hinv : AppInv (appRun AppTimerState.mounted aevs) :=
    appRun_inv AppTimerState.mounted aevs
      (by exact ⟨fun _ => ⟨rfl, rfl⟩, fun h => Bool.noConfusion h⟩)
  have hrw : appAfterUnmount aevs
      = appStep (appRun AppTimerState.mounted aevs) AppEv.unmount := by
    unfold appAfterUnmount
    rw [appRun_append]
    rfl
  rw [hrw]
  exact appStep_unmount_spec _ hinv

/-- C5: Teardown cancellation — after `onBeforeUnmount`, the pane owns no
live timer (the pending resize-debounce timeout was cleared) and no event
can fire a further `resize_terminal` invocation; likewise the root
component's cwd-polling interval is cleared and no further `terminal_cwd`
polls are issued. No orphaned timers remain on either side. -/
theorem teardown_cancellation (evs evs' : List PaneEv)
    (aevs aevs' : List AppEv) :
    (paneAfterUnmount evs).live = []
  ∧ paneRun (paneAfterUnmount evs) evs' = paneAfterUnmount evs
  ∧ (paneRun (paneAfterUnmount evs) evs').resizeCalls
      = (paneAfterUnmount evs).resizeCalls
  ∧ (appAfterUnmount aevs).live = []
  ∧ appRun (appAfterUnmount aevs) aevs' = appAfterUnmount aevs
  ∧ (appRun (appAfterUnmount aevs) aevs').polls
      = (appAfterUnmount aevs).polls := by
  obtain ⟨hpl, hpu⟩ := paneAfterUnmount_spec evs
  obtain ⟨hal, hau⟩ := appAfterUnmount_spec aevs
  have hpfix := paneRun_fixed (paneAfterUnmount evs) hpu hpl evs'
  have hafix := appRun_fixed (appAfterUnmount aevs) hau hal aevs'
  exact ⟨hpl, hpfix, by rw [hpfix], hal, hafix, by rw [hafix]⟩

end NlkTerm
